import Mathlib

set_option maxHeartbeats 1000000

/-!
Verification of the EncryptedDAO governance repository: a shallow embedding of
the `EncryptedDAO` Solidity contract (membership registry, proposal store and
encrypted tally engine) and of the browser hook `useEncryptedDAO` (decryption
and vote session protocols with staleness guards), together with theorems about
the specified properties.

Machine integers are modelled as `Nat` with explicit reduction modulo the type
width where the source wraps (the 32-bit encrypted counters) and with explicit
revert-on-overflow where Solidity 0.8 checked arithmetic reverts (`uint256`).
Encrypted `euint32` values are modelled by their underlying plaintexts.
-/

/-- Modulus of the Solidity uint256 type. -/
def UINT256_MOD : Nat := 2 ^ 256

/-- Modulus of the 32-bit encrypted counter type euint32. -/
def UINT32_MOD : Nat := 2 ^ 32

namespace FHE

/-- Modelled from the spec: the FHE co-processor library (external to this
repository, imported by the contract) trivially encrypts a plaintext into a
32-bit encrypted value; we model the ciphertext by its underlying plaintext. -/
def asEuint32 (n : Nat) : Nat := n % UINT32_MOD

/-- Modelled from the spec: conversion of an externally supplied ciphertext
plus validity proof into an internally trusted 32-bit ciphertext; the proof
validity check is modelled by a separate Boolean at the call site. -/
def fromExternal (n : Nat) : Nat := n % UINT32_MOD

/-- Modelled from the spec: homomorphic equality test, acting on plaintexts. -/
def eq (a b : Nat) : Bool := a == b

/-- Modelled from the spec: homomorphic selection between two plaintexts. -/
def select (c : Bool) (a b : Nat) : Nat := if c then a else b

/-- Modelled from the spec: homomorphic 32-bit addition on the plaintexts. -/
def add (a b : Nat) : Nat := (a + b) % UINT32_MOD

end FHE

namespace EncryptedDAO

/-- The contract's `Member` struct. -/
structure Member where
  isMember : Bool
  joinTime : Nat

/-- The contract's `Proposal` struct; the two euint32 counters are modelled by
their underlying plaintexts. -/
structure Proposal where
  id : Nat
  proposer : Nat
  description : String
  startTime : Nat
  endTime : Nat
  executed : Bool
  encryptedYesVotes : Nat
  encryptedNoVotes : Nat
  totalVoters : Nat

/-- Zero-initialized mapping default of the `Member` struct. -/
def Member.zero : Member := ⟨false, 0⟩

/-- Zero-initialized mapping default of the `Proposal` struct. -/
def Proposal.zero : Proposal := ⟨0, 0, "", 0, 0, false, 0, 0, 0⟩

/-- The contract storage: the three mappings and the two counters.
Addresses are modelled as `Nat`. -/
structure DAOState where
  proposals : Nat → Proposal
  hasVoted : Nat → Nat → Bool
  members : Nat → Member
  proposalCounter : Nat
  memberCounter : Nat

/-- Revert reasons of the contract, one per `require` string, plus the checked
arithmetic overflow revert of Solidity 0.8 and the FHE proof failure. -/
inductive DAOError where
  | notMember
  | invalidProposalId
  | alreadyMember
  | votingDurationTooShort
  | emptyDescription
  | votingNotStarted
  | votingEnded
  | alreadyVoted
  | proposalExecuted
  | invalidProof
  | overflow
deriving DecidableEq

/-- `MIN_VOTING_DURATION = 1 days` (in seconds). -/
def MIN_VOTING_DURATION : Nat := 86400

/-- The constructor: registers the deployer as the first member and sets
`memberCounter` to 1. -/
def deployContract (deployer time : Nat) : DAOState where
  proposals := fun _ => Proposal.zero
  hasVoted := fun _ _ => false
  members := fun a => if a = deployer then ⟨true, time⟩ else Member.zero
  proposalCounter := 0
  memberCounter := 1

/-- `joinDAO()`: self-registration, reverts if already a member. -/
def joinDAO (s : DAOState) (sender time : Nat) : Except DAOError DAOState :=
  if (s.members sender).isMember = true then Except.error DAOError.alreadyMember
  else if s.memberCounter + 1 < UINT256_MOD then
    Except.ok { s with
      members := fun a => if a = sender then ⟨true, time⟩ else s.members a
      memberCounter := s.memberCounter + 1 }
  else Except.error DAOError.overflow

/-- `addMember(newMember)`: member-gated registration of a third party. -/
def addMember (s : DAOState) (sender newMember time : Nat) :
    Except DAOError DAOState :=
  if (s.members sender).isMember = true then
    if (s.members newMember).isMember = true then Except.error DAOError.alreadyMember
    else if s.memberCounter + 1 < UINT256_MOD then
      Except.ok { s with
        members := fun a => if a = newMember then ⟨true, time⟩ else s.members a
        memberCounter := s.memberCounter + 1 }
    else Except.error DAOError.overflow
  else Except.error DAOError.notMember

/-- `createProposal(description, votingDuration)`: allocates the next
sequential id and records the proposal with zeroed encrypted counters.
Returns the new state together with the returned proposal id. -/
def createProposal (s : DAOState) (sender : Nat) (description : String)
    (votingDuration time : Nat) : Except DAOError (DAOState × Nat) :=
  if (s.members sender).isMember = true then
    if MIN_VOTING_DURATION ≤ votingDuration then
      if description.utf8ByteSize ≠ 0 then
        if s.proposalCounter + 1 < UINT256_MOD then
          if time + votingDuration < UINT256_MOD then
            Except.ok
              ({ s with
                  proposals := fun k =>
                    if k = s.proposalCounter + 1 then
                      { id := s.proposalCounter + 1
                        proposer := sender
                        description := description
                        startTime := time
                        endTime := time + votingDuration
                        executed := false
                        encryptedYesVotes := FHE.asEuint32 0
                        encryptedNoVotes := FHE.asEuint32 0
                        totalVoters := 0 }
                    else s.proposals k
                  proposalCounter := s.proposalCounter + 1 },
                s.proposalCounter + 1)
          else Except.error DAOError.overflow
        else Except.error DAOError.overflow
      else Except.error DAOError.emptyDescription
    else Except.error DAOError.votingDurationTooShort
  else Except.error DAOError.notMember

/-- `castVote(proposalId, encryptedVote, voteProof)`: modifier order is
`validProposal` then `onlyMember`, then the four `require`s in source order,
then the FHE proof conversion, the homomorphic counter updates, the
`totalVoters` increment and the vote receipt.  The external ciphertext is
modelled by its plaintext `ballot`; `proofOk` models validity of `voteProof`. -/
def castVote (s : DAOState) (sender proposalId ballot : Nat) (proofOk : Bool)
    (time : Nat) : Except DAOError DAOState :=
  if 0 < proposalId ∧ proposalId ≤ s.proposalCounter then
    if (s.members sender).isMember = true then
      if (s.proposals proposalId).startTime ≤ time then
        if time ≤ (s.proposals proposalId).endTime then
          if s.hasVoted proposalId sender = false then
            if (s.proposals proposalId).executed = false then
              if proofOk = true then
                if (s.proposals proposalId).totalVoters + 1 < UINT256_MOD then
                  Except.ok { s with
                    proposals := fun k =>
                      if k = proposalId then
                        { s.proposals proposalId with
                          encryptedYesVotes :=
                            FHE.add (s.proposals proposalId).encryptedYesVotes
                              (FHE.select
                                (FHE.eq (FHE.fromExternal ballot) (FHE.asEuint32 1))
                                (FHE.asEuint32 1) (FHE.asEuint32 0))
                          encryptedNoVotes :=
                            FHE.add (s.proposals proposalId).encryptedNoVotes
                              (FHE.select
                                (FHE.eq (FHE.fromExternal ballot) (FHE.asEuint32 0))
                                (FHE.asEuint32 1) (FHE.asEuint32 0))
                          totalVoters := (s.proposals proposalId).totalVoters + 1 }
                      else s.proposals k
                    hasVoted := fun q a =>
                      if q = proposalId ∧ a = sender then true else s.hasVoted q a }
                else Except.error DAOError.overflow
              else Except.error DAOError.invalidProof
            else Except.error DAOError.proposalExecuted
          else Except.error DAOError.alreadyVoted
        else Except.error DAOError.votingEnded
      else Except.error DAOError.votingNotStarted
    else Except.error DAOError.notMember
  else Except.error DAOError.invalidProposalId

/-- `getProposal(proposalId)`: `validProposal`-guarded read of the
non-encrypted proposal fields. -/
def getProposal (s : DAOState) (proposalId : Nat) :
    Except DAOError (Nat × Nat × String × Nat × Nat × Bool × Nat) :=
  if 0 < proposalId ∧ proposalId ≤ s.proposalCounter then
    Except.ok ((s.proposals proposalId).id, (s.proposals proposalId).proposer,
      (s.proposals proposalId).description, (s.proposals proposalId).startTime,
      (s.proposals proposalId).endTime, (s.proposals proposalId).executed,
      (s.proposals proposalId).totalVoters)
  else Except.error DAOError.invalidProposalId

/-- `getEncryptedVotes(proposalId)`: `validProposal`-guarded read of the two
counter handles (modelled by their plaintexts). -/
def getEncryptedVotes (s : DAOState) (proposalId : Nat) :
    Except DAOError (Nat × Nat) :=
  if 0 < proposalId ∧ proposalId ≤ s.proposalCounter then
    Except.ok ((s.proposals proposalId).encryptedYesVotes,
      (s.proposals proposalId).encryptedNoVotes)
  else Except.error DAOError.invalidProposalId

/-- `grantDecryptionAccess(proposalId)`: `validProposal` then `onlyMember`;
the ACL grant lives in the co-processor, outside the modelled storage. -/
def grantDecryptionAccess (s : DAOState) (sender proposalId : Nat) :
    Except DAOError Unit :=
  if 0 < proposalId ∧ proposalId ≤ s.proposalCounter then
    if (s.members sender).isMember = true then Except.ok ()
    else Except.error DAOError.notMember
  else Except.error DAOError.invalidProposalId

/-- `isVotingEnded(proposalId)`: strictly `block.timestamp > endTime`. -/
def isVotingEnded (s : DAOState) (proposalId time : Nat) :
    Except DAOError Bool :=
  if 0 < proposalId ∧ proposalId ≤ s.proposalCounter then
    Except.ok (decide ((s.proposals proposalId).endTime < time))
  else Except.error DAOError.invalidProposalId

/-- `checkHasVoted(proposalId, voter)`. -/
def checkHasVoted (s : DAOState) (proposalId voter : Nat) :
    Except DAOError Bool :=
  if 0 < proposalId ∧ proposalId ≤ s.proposalCounter then
    Except.ok (s.hasVoted proposalId voter)
  else Except.error DAOError.invalidProposalId

/-- `isMember(addr)`. -/
def isMember (s : DAOState) (addr : Nat) : Bool := (s.members addr).isMember

/-- `getProposalCount()`. -/
def getProposalCount (s : DAOState) : Nat := s.proposalCounter

/-- `getMemberCount()`. -/
def getMemberCount (s : DAOState) : Nat := s.memberCounter

/-- One successful state-changing entry point of the contract. -/
inductive Step : DAOState → DAOState → Prop where
  | join {s s' : DAOState} {a t : Nat} (h : joinDAO s a t = Except.ok s') :
      Step s s'
  | add {s s' : DAOState} {m a t : Nat} (h : addMember s m a t = Except.ok s') :
      Step s s'
  | create {s s' : DAOState} {m : Nat} {d : String} {dur t pid : Nat}
      (h : createProposal s m d dur t = Except.ok (s', pid)) : Step s s'
  | vote {s s' : DAOState} {m pid b : Nat} {pf : Bool} {t : Nat}
      (h : castVote s m pid b pf t = Except.ok s') : Step s s'
  | grant {s : DAOState} {m pid : Nat}
      (h : grantDecryptionAccess s m pid = Except.ok ()) : Step s s

/-- Finitely many successful contract transactions. -/
inductive Steps : DAOState → DAOState → Prop where
  | refl (s : DAOState) : Steps s s
  | tail {s s' s'' : DAOState} (h : Steps s s') (h' : Step s' s'') : Steps s s''

/-- Reachability from deployment, instrumented with a ghost log of the
successful vote submissions `(proposalId, voter, ballot mod 2^32)`, newest
first. -/
inductive TReach : DAOState → List (Nat × Nat × Nat) → Prop where
  | init (deployer time : Nat) : TReach (deployContract deployer time) []
  | join {s : DAOState} {log : List (Nat × Nat × Nat)} {a t : Nat}
      {s' : DAOState} (h : TReach s log) (hj : joinDAO s a t = Except.ok s') :
      TReach s' log
  | add {s : DAOState} {log : List (Nat × Nat × Nat)} {m a t : Nat}
      {s' : DAOState} (h : TReach s log)
      (ha : addMember s m a t = Except.ok s') : TReach s' log
  | create {s : DAOState} {log : List (Nat × Nat × Nat)} {m : Nat} {d : String}
      {dur t : Nat} {s' : DAOState} {pid : Nat} (h : TReach s log)
      (hc : createProposal s m d dur t = Except.ok (s', pid)) : TReach s' log
  | vote {s : DAOState} {log : List (Nat × Nat × Nat)} {m pid b : Nat}
      {pf : Bool} {t : Nat} {s' : DAOState} (h : TReach s log)
      (hv : castVote s m pid b pf t = Except.ok s') :
      TReach s' ((pid, m, b % UINT32_MOD) :: log)

/-- Everything a successful `joinDAO` call implies: the preconditions held and
the stored fields of the new state. -/
theorem joinDAO_ok_elim {s : DAOState} {a t : Nat} {s' : DAOState}
    (h : joinDAO s a t = Except.ok s') :
    (s.members a).isMember = false ∧
    s.memberCounter + 1 < UINT256_MOD ∧
    s'.members = (fun x => if x = a then ⟨true, t⟩ else s.members x) ∧
    s'.proposals = s.proposals ∧
    s'.hasVoted = s.hasVoted ∧
    s'.proposalCounter = s.proposalCounter ∧
    s'.memberCounter = s.memberCounter + 1 := by
  unfold joinDAO at h
  by_cases h1 : (s.members a).isMember = true
  · rw [if_pos h1] at h
    exact Except.noConfusion h
  · rw [if_neg h1] at h
    by_cases h2 : s.memberCounter + 1 < UINT256_MOD
    · rw [if_pos h2] at h
      injection h with h3
      subst h3
      exact ⟨by simpa using h1, h2, rfl, rfl, rfl, rfl, rfl⟩
    · rw [if_neg h2] at h
      exact Except.noConfusion h

/-- Everything a successful `addMember` call implies. -/
theorem addMember_ok_elim {s : DAOState} {m a t : Nat} {s' : DAOState}
    (h : addMember s m a t = Except.ok s') :
    (s.members m).isMember = true ∧
    (s.members a).isMember = false ∧
    s.memberCounter + 1 < UINT256_MOD ∧
    s'.members = (fun x => if x = a then ⟨true, t⟩ else s.members x) ∧
    s'.proposals = s.proposals ∧
    s'.hasVoted = s.hasVoted ∧
    s'.proposalCounter = s.proposalCounter ∧
    s'.memberCounter = s.memberCounter + 1 := by
  unfold addMember at h
  by_cases h1 : (s.members m).isMember = true
  · rw [if_pos h1] at h
    by_cases h2 : (s.members a).isMember = true
    · rw [if_pos h2] at h
      exact Except.noConfusion h
    · rw [if_neg h2] at h
      by_cases h3 : s.memberCounter + 1 < UINT256_MOD
      · rw [if_pos h3] at h
        injection h with h4
        subst h4
        exact ⟨h1, by simpa using h2, h3, rfl, rfl, rfl, rfl, rfl⟩
      · rw [if_neg h3] at h
        exact Except.noConfusion h
  · rw [if_neg h1] at h
    exact Except.noConfusion h

/-- Everything a successful `createProposal` call implies: the preconditions
held, the returned id is the next sequential one, and the allocated record. -/
theorem createProposal_ok_elim {s : DAOState} {m : Nat} {d : String}
    {dur t : Nat} {s' : DAOState} {pid : Nat}
    (h : createProposal s m d dur t = Except.ok (s', pid)) :
    (s.members m).isMember = true ∧
    MIN_VOTING_DURATION ≤ dur ∧
    d.utf8ByteSize ≠ 0 ∧
    s.proposalCounter + 1 < UINT256_MOD ∧
    t + dur < UINT256_MOD ∧
    pid = s.proposalCounter + 1 ∧
    s'.proposals = (fun k =>
      if k = s.proposalCounter + 1 then
        { id := s.proposalCounter + 1, proposer := m, description := d,
          startTime := t, endTime := t + dur, executed := false,
          encryptedYesVotes := FHE.asEuint32 0,
          encryptedNoVotes := FHE.asEuint32 0, totalVoters := 0 }
      else s.proposals k) ∧
    s'.hasVoted = s.hasVoted ∧
    s'.members = s.members ∧
    s'.proposalCounter = s.proposalCounter + 1 ∧
    s'.memberCounter = s.memberCounter := by
  unfold createProposal at h
  by_cases h1 : (s.members m).isMember = true
  · rw [if_pos h1] at h
    by_cases h2 : MIN_VOTING_DURATION ≤ dur
    · rw [if_pos h2] at h
      by_cases h3 : d.utf8ByteSize ≠ 0
      · rw [if_pos h3] at h
        by_cases h4 : s.proposalCounter + 1 < UINT256_MOD
        · rw [if_pos h4] at h
          by_cases h5 : t + dur < UINT256_MOD
          · rw [if_pos h5] at h
            injection h with h6
            injection h6 with h7 h8
            subst h7
            subst h8
            exact ⟨h1, h2, h3, h4, h5, rfl, rfl, rfl, rfl, rfl, rfl⟩
          · rw [if_neg h5] at h
            exact Except.noConfusion h
        · rw [if_neg h4] at h
          exact Except.noConfusion h
      · rw [if_neg h3] at h
        exact Except.noConfusion h
    · rw [if_neg h2] at h
      exact Except.noConfusion h
  · rw [if_neg h1] at h
    exact Except.noConfusion h

/-- Everything a successful `castVote` call implies: the preconditions held
and the updated storage fields. -/
theorem castVote_ok_elim {s : DAOState} {m pid b : Nat} {pf : Bool} {t : Nat}
    {s' : DAOState} (h : castVote s m pid b pf t = Except.ok s') :
    (0 < pid ∧ pid ≤ s.proposalCounter) ∧
    (s.members m).isMember = true ∧
    (s.proposals pid).startTime ≤ t ∧
    t ≤ (s.proposals pid).endTime ∧
    s.hasVoted pid m = false ∧
    (s.proposals pid).executed = false ∧
    pf = true ∧
    (s.proposals pid).totalVoters + 1 < UINT256_MOD ∧
    s'.proposals = (fun k =>
      if k = pid then
        { s.proposals pid with
          encryptedYesVotes :=
            FHE.add (s.proposals pid).encryptedYesVotes
              (FHE.select (FHE.eq (FHE.fromExternal b) (FHE.asEuint32 1))
                (FHE.asEuint32 1) (FHE.asEuint32 0))
          encryptedNoVotes :=
            FHE.add (s.proposals pid).encryptedNoVotes
              (FHE.select (FHE.eq (FHE.fromExternal b) (FHE.asEuint32 0))
                (FHE.asEuint32 1) (FHE.asEuint32 0))
          totalVoters := (s.proposals pid).totalVoters + 1 }
      else s.proposals k) ∧
    s'.hasVoted = (fun q a => if q = pid ∧ a = m then true else s.hasVoted q a) ∧
    s'.members = s.members ∧
    s'.proposalCounter = s.proposalCounter ∧
    s'.memberCounter = s.memberCounter := by
  unfold castVote at h
  by_cases h1 : 0 < pid ∧ pid ≤ s.proposalCounter
  · rw [if_pos h1] at h
    by_cases h2 : (s.members m).isMember = true
    · rw [if_pos h2] at h
      by_cases h3 : (s.proposals pid).startTime ≤ t
      · rw [if_pos h3] at h
        by_cases h4 : t ≤ (s.proposals pid).endTime
        · rw [if_pos h4] at h
          by_cases h5 : s.hasVoted pid m = false
          · rw [if_pos h5] at h
            by_cases h6 : (s.proposals pid).executed = false
            · rw [if_pos h6] at h
              by_cases h7 : pf = true
              · rw [if_pos h7] at h
                by_cases h8 : (s.proposals pid).totalVoters + 1 < UINT256_MOD
                · rw [if_pos h8] at h
                  injection h with h9
                  subst h9
                  exact ⟨h1, h2, h3, h4, h5, h6, h7, h8, rfl, rfl, rfl, rfl, rfl⟩
                · rw [if_neg h8] at h
                  exact Except.noConfusion h
              · rw [if_neg h7] at h
                exact Except.noConfusion h
            · rw [if_neg h6] at h
              exact Except.noConfusion h
          · rw [if_neg h5] at h
            exact Except.noConfusion h
        · rw [if_neg h4] at h
          exact Except.noConfusion h
      · rw [if_neg h3] at h
        exact Except.noConfusion h
    · rw [if_neg h2] at h
      exact Except.noConfusion h
  · rw [if_neg h1] at h
    exact Except.noConfusion h

/-- A `castVote` call with all preconditions satisfied succeeds, with the
stored update made explicit. -/
theorem castVote_ok_intro {s : DAOState} {m pid b t : Nat}
    (h1 : 0 < pid) (h2 : pid ≤ s.proposalCounter)
    (h3 : (s.members m).isMember = true)
    (h4 : (s.proposals pid).startTime ≤ t)
    (h5 : t ≤ (s.proposals pid).endTime)
    (h6 : s.hasVoted pid m = false)
    (h7 : (s.proposals pid).executed = false)
    (h8 : (s.proposals pid).totalVoters + 1 < UINT256_MOD) :
    castVote s m pid b true t = Except.ok { s with
      proposals := fun k =>
        if k = pid then
          { s.proposals pid with
            encryptedYesVotes :=
              FHE.add (s.proposals pid).encryptedYesVotes
                (FHE.select (FHE.eq (FHE.fromExternal b) (FHE.asEuint32 1))
                  (FHE.asEuint32 1) (FHE.asEuint32 0))
            encryptedNoVotes :=
              FHE.add (s.proposals pid).encryptedNoVotes
                (FHE.select (FHE.eq (FHE.fromExternal b) (FHE.asEuint32 0))
                  (FHE.asEuint32 1) (FHE.asEuint32 0))
            totalVoters := (s.proposals pid).totalVoters + 1 }
        else s.proposals k
      hasVoted := fun q a =>
        if q = pid ∧ a = m then true else s.hasVoted q a } := by
  unfold castVote
  rw [if_pos ⟨h1, h2⟩, if_pos h3, if_pos h4, if_pos h5, if_pos h6, if_pos h7,
    if_pos rfl, if_pos h8]

/-- A `createProposal` call with all preconditions satisfied succeeds, with
the allocated proposal record made explicit. -/
theorem createProposal_ok_intro {s : DAOState} {m : Nat} {d : String}
    {dur t : Nat}
    (h1 : (s.members m).isMember = true)
    (h2 : MIN_VOTING_DURATION ≤ dur)
    (h3 : d.utf8ByteSize ≠ 0)
    (h4 : s.proposalCounter + 1 < UINT256_MOD)
    (h5 : t + dur < UINT256_MOD) :
    createProposal s m d dur t = Except.ok
      ({ s with
          proposals := fun k =>
            if k = s.proposalCounter + 1 then
              { id := s.proposalCounter + 1, proposer := m, description := d,
                startTime := t, endTime := t + dur, executed := false,
                encryptedYesVotes := FHE.asEuint32 0,
                encryptedNoVotes := FHE.asEuint32 0, totalVoters := 0 }
            else s.proposals k
          proposalCounter := s.proposalCounter + 1 },
        s.proposalCounter + 1) := by
  unfold createProposal
  rw [if_pos h1, if_pos h2, if_pos h3, if_pos h4, if_pos h5]

/-- No contract entry point ever clears a membership flag. -/
theorem step_members_mono {s s' : DAOState} (h : Step s s') (a : Nat)
    (hm : (s.members a).isMember = true) : (s'.members a).isMember = true := by
  cases h with
  | join hj =>
    simp only [(joinDAO_ok_elim hj).2.2.1]
    split
    · rfl
    · exact hm
  | add ha =>
    simp only [(addMember_ok_elim ha).2.2.2.1]
    split
    · rfl
    · exact hm
  | create hc =>
    rw [(createProposal_ok_elim hc).2.2.2.2.2.2.2.2.1]
    exact hm
  | vote hv =>
    rw [(castVote_ok_elim hv).2.2.2.2.2.2.2.2.2.2.1]
    exact hm
  | grant _ => exact hm

/-- Membership is monotone along any sequence of transactions. -/
theorem steps_members_mono {s s' : DAOState} (h : Steps s s') (a : Nat)
    (hm : (s.members a).isMember = true) : (s'.members a).isMember = true := by
  induction h with
  | refl => exact hm
  | tail _ hstep ih => exact step_members_mono hstep a ih

/-- The proposal counter never decreases. -/
theorem step_proposalCounter_mono {s s' : DAOState} (h : Step s s') :
    s.proposalCounter ≤ s'.proposalCounter := by
  cases h with
  | join hj => rw [(joinDAO_ok_elim hj).2.2.2.2.2.1]
  | add ha => rw [(addMember_ok_elim ha).2.2.2.2.2.2.1]
  | create hc =>
    rw [(createProposal_ok_elim hc).2.2.2.2.2.2.2.2.2.1]
    exact Nat.le_succ _
  | vote hv => rw [(castVote_ok_elim hv).2.2.2.2.2.2.2.2.2.2.2.1]
  | grant _ => exact Nat.le_refl _

/-- The proposal counter never decreases along any sequence of transactions. -/
theorem steps_proposalCounter_mono {s s' : DAOState} (h : Steps s s') :
    s.proposalCounter ≤ s'.proposalCounter := by
  induction h with
  | refl => exact Nat.le_refl _
  | tail _ hstep ih => exact Nat.le_trans ih (step_proposalCounter_mono hstep)

/-- No contract entry point ever clears a vote receipt. -/
theorem step_hasVoted_mono {s s' : DAOState} (h : Step s s') (p v : Nat)
    (hv0 : s.hasVoted p v = true) : s'.hasVoted p v = true := by
  cases h with
  | join hj =>
    rw [(joinDAO_ok_elim hj).2.2.2.2.1]
    exact hv0
  | add ha =>
    rw [(addMember_ok_elim ha).2.2.2.2.2.1]
    exact hv0
  | create hc =>
    rw [(createProposal_ok_elim hc).2.2.2.2.2.2.2.1]
    exact hv0
  | vote hvx =>
    simp only [(castVote_ok_elim hvx).2.2.2.2.2.2.2.2.2.1]
    split
    · rfl
    · exact hv0
  | grant _ => exact hv0

/-- Vote receipts are monotone along any sequence of transactions. -/
theorem steps_hasVoted_mono {s s' : DAOState} (h : Steps s s') (p v : Nat)
    (hv0 : s.hasVoted p v = true) : s'.hasVoted p v = true := by
  induction h with
  | refl => exact hv0
  | tail _ hstep ih => exact step_hasVoted_mono hstep p v ih

/-- A vote-log entry counted in the yes counter of proposal `p`. -/
def yesPred (p : Nat) (e : Nat × Nat × Nat) : Bool :=
  (e.1 == p) && (e.2.2 == 1)

/-- A vote-log entry counted in the no counter of proposal `p`. -/
def noPred (p : Nat) (e : Nat × Nat × Nat) : Bool :=
  (e.1 == p) && (e.2.2 == 0)

/-- Two vote-log entries about distinct (proposal, voter) pairs. -/
def keyDistinct (e1 e2 : Nat × Nat × Nat) : Prop :=
  ¬(e1.1 = e2.1 ∧ e1.2.1 = e2.2.1)

/-- The accounting invariant tying the stored tallies to the ghost vote log:
receipts coincide with logged submissions, each (proposal, voter) pair occurs
at most once, each counter is the 32-bit reduction of the number of logged
ballots equal to its target value, and all logged ids are valid. -/
def VoteAccounting (s : DAOState) (log : List (Nat × Nat × Nat)) : Prop :=
  (∀ p v, s.hasVoted p v = true ↔ ∃ b, (p, v, b) ∈ log) ∧
  List.Pairwise keyDistinct log ∧
  (∀ p, (s.proposals p).encryptedYesVotes = (log.countP (yesPred p)) % UINT32_MOD) ∧
  (∀ p, (s.proposals p).encryptedNoVotes = (log.countP (noPred p)) % UINT32_MOD) ∧
  (∀ e, e ∈ log → 0 < e.1 ∧ e.1 ≤ s.proposalCounter)

theorem uint32_one_lt : 1 < UINT32_MOD := by decide

theorem one_mod_uint32 : 1 % UINT32_MOD = 1 := Nat.mod_eq_of_lt uint32_one_lt

theorem zero_mod_uint32 : 0 % UINT32_MOD = 0 := Nat.zero_mod _

/-- `joinDAO` preserves the accounting invariant. -/
theorem voteAccounting_join {s : DAOState} {log : List (Nat × Nat × Nat)}
    {a t : Nat} {s' : DAOState} (inv : VoteAccounting s log)
    (hj : joinDAO s a t = Except.ok s') : VoteAccounting s' log := by
  obtain ⟨-, -, -, hprop, hhv, hpc, -⟩ := joinDAO_ok_elim hj
  obtain ⟨ihA, ihB, ihC, ihD, ihE⟩ := inv
  refine ⟨?_, ihB, ?_, ?_, ?_⟩
  · intro p v
    rw [hhv]
    exact ihA p v
  · intro p
    rw [hprop]
    exact ihC p
  · intro p
    rw [hprop]
    exact ihD p
  · intro e he
    rw [hpc]
    exact ihE e he

/-- `addMember` preserves the accounting invariant. -/
theorem voteAccounting_add {s : DAOState} {log : List (Nat × Nat × Nat)}
    {m a t : Nat} {s' : DAOState} (inv : VoteAccounting s log)
    (ha : addMember s m a t = Except.ok s') : VoteAccounting s' log := by
  obtain ⟨-, -, -, -, hprop, hhv, hpc, -⟩ := addMember_ok_elim ha
  obtain ⟨ihA, ihB, ihC, ihD, ihE⟩ := inv
  refine ⟨?_, ihB, ?_, ?_, ?_⟩
  · intro p v
    rw [hhv]
    exact ihA p v
  · intro p
    rw [hprop]
    exact ihC p
  · intro p
    rw [hprop]
    exact ihD p
  · intro e he
    rw [hpc]
    exact ihE e he

/-- `createProposal` preserves the accounting invariant: the fresh proposal
has no logged ballots, so its zeroed counters match the empty count. -/
theorem voteAccounting_create {s : DAOState} {log : List (Nat × Nat × Nat)}
    {m : Nat} {d : String} {dur t : Nat} {s' : DAOState} {pid : Nat}
    (inv : VoteAccounting s log)
    (hc : createProposal s m d dur t = Except.ok (s', pid)) :
    VoteAccounting s' log := by
  obtain ⟨-, -, -, -, -, -, hprop, hhv, -, hpc, -⟩ := createProposal_ok_elim hc
  obtain ⟨ihA, ihB, ihC, ihD, ihE⟩ := inv
  refine ⟨?_, ihB, ?_, ?_, ?_⟩
  · intro p v
    rw [hhv]
    exact ihA p v
  · intro p
    simp only [hprop]
    by_cases hp : p = s.proposalCounter + 1
    · rw [if_pos hp]
      have hcount : log.countP (yesPred p) = 0 := by
        rw [List.countP_eq_zero]
        intro e he
        have h1 := (ihE e he).2
        simp only [yesPred, Bool.and_eq_true, beq_iff_eq]
        rintro ⟨hc1, -⟩
        omega
      rw [hcount]
      rfl
    · rw [if_neg hp]
      exact ihC p
  · intro p
    simp only [hprop]
    by_cases hp : p = s.proposalCounter + 1
    · rw [if_pos hp]
      have hcount : log.countP (noPred p) = 0 := by
        rw [List.countP_eq_zero]
        intro e he
        have h1 := (ihE e he).2
        simp only [noPred, Bool.and_eq_true, beq_iff_eq]
        rintro ⟨hc1, -⟩
        omega
      rw [hcount]
      rfl
    · rw [if_neg hp]
      exact ihD p
  · intro e he
    rw [hpc]
    exact ⟨(ihE e he).1, Nat.le_trans (ihE e he).2 (Nat.le_succ _)⟩

/-- `castVote` extends the accounting invariant by the new log entry: the new
receipt matches the new entry, the (proposal, voter) key is fresh, and each
counter absorbs exactly the new entry's contribution. -/
theorem voteAccounting_vote {s : DAOState} {log : List (Nat × Nat × Nat)}
    {m pid b : Nat} {pf : Bool} {t : Nat} {s' : DAOState}
    (inv : VoteAccounting s log)
    (hv : castVote s m pid b pf t = Except.ok s') :
    VoteAccounting s' ((pid, m, b % UINT32_MOD) :: log) := by
  obtain ⟨hvalid, -, -, -, hnv, -, -, -, hprop, hhv, -, hpc, -⟩ :=
    castVote_ok_elim hv
  obtain ⟨ihA, ihB, ihC, ihD, ihE⟩ := inv
  refine ⟨?_, ?_, ?_, ?_, ?_⟩
  · intro p v
    simp only [hhv]
    by_cases hkey : p = pid ∧ v = m
    · rw [if_pos hkey]
      constructor
      · intro _
        refine ⟨b % UINT32_MOD, ?_⟩
        rw [hkey.1, hkey.2]
        exact List.mem_cons_self _ _
      · intro _
        rfl
    · rw [if_neg hkey]
      constructor
      · intro hx
        obtain ⟨b', hb'⟩ := (ihA p v).mp hx
        exact ⟨b', List.mem_cons_of_mem _ hb'⟩
      · rintro ⟨b', hb'⟩
        rcases List.mem_cons.mp hb' with heq | hmem
        · exfalso
          apply hkey
          have h1 : p = pid := congrArg Prod.fst heq
          have h2 : v = m := congrArg (fun x => x.2.1) heq
          exact ⟨h1, h2⟩
        · exact (ihA p v).mpr ⟨b', hmem⟩
  · refine List.pairwise_cons.mpr ⟨?_, ihB⟩
    intro e he hcon
    obtain ⟨h1, h2⟩ := hcon
    have h1' : pid = e.1 := h1
    have h2' : m = e.2.1 := h2
    have hmem : (pid, m, e.2.2) ∈ log := by
      have hx : (pid, m, e.2.2) = e := by
        rw [h1', h2']
      rw [hx]
      exact he
    have hvoted := (ihA pid m).mpr ⟨e.2.2, hmem⟩
    rw [hnv] at hvoted
    exact Bool.noConfusion hvoted
  · intro p
    simp only [hprop]
    by_cases hp : p = pid
    · subst hp
      rw [if_pos rfl, List.countP_cons]
      simp only [yesPred, FHE.add, FHE.select, FHE.eq, FHE.fromExternal,
        FHE.asEuint32, one_mod_uint32, zero_mod_uint32, beq_self_eq_true,
        Bool.true_and]
      rw [ihC p, Nat.mod_add_mod]
    · rw [if_neg hp, List.countP_cons]
      have hpred : yesPred p (pid, m, b % UINT32_MOD) = false := by
        simp only [yesPred, Bool.and_eq_true, beq_iff_eq,
          Bool.eq_false_iff, ne_eq]
        rintro ⟨hc1, -⟩
        exact hp hc1.symm
      rw [hpred]
      simp only [Bool.false_eq_true, if_false, Nat.add_zero]
      exact ihC p
  · intro p
    simp only [hprop]
    by_cases hp : p = pid
    · subst hp
      rw [if_pos rfl, List.countP_cons]
      simp only [noPred, FHE.add, FHE.select, FHE.eq, FHE.fromExternal,
        FHE.asEuint32, one_mod_uint32, zero_mod_uint32, beq_self_eq_true,
        Bool.true_and]
      rw [ihD p, Nat.mod_add_mod]
    · rw [if_neg hp, List.countP_cons]
      have hpred : noPred p (pid, m, b % UINT32_MOD) = false := by
        simp only [noPred, Bool.and_eq_true, beq_iff_eq,
          Bool.eq_false_iff, ne_eq]
        rintro ⟨hc1, -⟩
        exact hp hc1.symm
      rw [hpred]
      simp only [Bool.false_eq_true, if_false, Nat.add_zero]
      exact ihD p
  · intro e he
    rcases List.mem_cons.mp he with heq | hmem
    · rw [hpc, heq]
      exact ⟨hvalid.1, hvalid.2⟩
    · rw [hpc]
      exact ihE e hmem

/-- Deployment by address 0 at time 0 (shared concrete example state). -/
def sDeploy : DAOState := deployContract 0 0

/-- State after the deployer creates proposal 1 with the minimum duration at
time 0, so the voting window is [0, 86400]. -/
def sCreated : DAOState :=
  match createProposal sDeploy 0 "p" 86400 0 with
  | Except.ok r => r.1
  | Except.error _ => sDeploy

/-- State after the deployer casts ballot 1 (yes) on proposal 1 at time 0. -/
def sVotedYes : DAOState :=
  match castVote sCreated 0 1 1 true 0 with
  | Except.ok s => s
  | Except.error _ => sCreated

/-- State after the deployer casts the out-of-range ballot 2 on proposal 1 at
time 0. -/
def sVotedTwo : DAOState :=
  match castVote sCreated 0 1 2 true 0 with
  | Except.ok s => s
  | Except.error _ => sCreated

/-- Every reachable instrumented state satisfies the accounting invariant. -/
theorem treach_voteAccounting {s : DAOState} {log : List (Nat × Nat × Nat)}
    (h : TReach s log) : VoteAccounting s log := by
  induction h with
  | init d t =>
    refine ⟨?_, List.Pairwise.nil, ?_, ?_, ?_⟩
    · intro p v
      simp [deployContract]
    · intro p
      simp [deployContract, Proposal.zero]
    · intro p
      simp [deployContract, Proposal.zero]
    · intro e he
      simp at he
  | join h hj ih => exact voteAccounting_join ih hj
  | add h ha ih => exact voteAccounting_add ih ha
  | create h hc ih => exact voteAccounting_create ih hc
  | vote h hv ih => exact voteAccounting_vote ih hv

end EncryptedDAO

namespace Hook

/-- The session context components whose change makes a request stale in
`useEncryptedDAO`: active chain id, signer account, and target contract
address (the last two are present whenever a request starts). -/
structure Ctx where
  chainId : Option Nat
  signer : Nat
  daoAddress : Nat
deriving DecidableEq

/-- The hook state fields the decryption and vote session protocols read and
write: the two loaded counter handles, the two decrypted clear values (each
keyed by the handle it was decrypted from), the two in-flight flags and the
status message.  Handles are modelled as `Nat`. -/
structure HookState where
  yesVotesHandle : Option Nat
  noVotesHandle : Option Nat
  clearYesVotes : Option (Nat × Nat)
  clearNoVotes : Option (Nat × Nat)
  isDecrypting : Bool
  isVoting : Bool
  message : String
deriving DecidableEq

/-- The `decryptVotes` callback of `useEncryptedDAO`.  Asynchronous awaits are
flattened: `ctxAtSig` and `ctxAtResolve` are the session contexts observed at
the two staleness checks (after the signature is obtained and after the
co-processor resolves), `sigObtained` is the outcome of building or loading
the decryption signature, and `coResult` the co-processor resolution of the
captured yes/no handles.  The `grantDecryptionAccess` transaction outcome is
caught and ignored by the source, so it does not appear.  All early returns
leave the state unchanged; every completed run resets `isDecrypting`. -/
def decryptVotes (st : HookState) (hasInstance : Bool) (signer : Option Nat)
    (daoAddress : Option Nat) (chainId : Option Nat)
    (selectedProposalId : Option Nat) (sigObtained : Bool)
    (ctxAtSig ctxAtResolve : Ctx) (coResult : Except String (Nat × Nat)) :
    HookState :=
  match st.yesVotesHandle, st.noVotesHandle, signer, daoAddress,
      selectedProposalId with
  | some yh, some nh, some sg, some ad, some _ =>
    if st.isDecrypting = true ∨ hasInstance = false then st
    else if st.clearYesVotes.map Prod.fst = some yh ∧
        st.clearNoVotes.map Prod.fst = some nh then st
    else if sigObtained = false then
      { st with
        isDecrypting := false
        message := "Unable to build FHEVM decryption signature" }
    else if ctxAtSig ≠ Ctx.mk chainId sg ad then
      { st with isDecrypting := false, message := "Ignore FHEVM decryption" }
    else
      match coResult with
      | Except.error e =>
          { st with isDecrypting := false, message := "Decryption failed: " ++ e }
      | Except.ok yn =>
          if ctxAtResolve ≠ Ctx.mk chainId sg ad then
            { st with isDecrypting := false, message := "Ignore FHEVM decryption" }
          else
            { st with
              isDecrypting := false
              clearYesVotes := some (yh, yn.1)
              clearNoVotes := some (nh, yn.2)
              message := "Decryption completed" }
  | _, _, _, _, _ => st

/-- The `castVote` callback of `useEncryptedDAO` (vote casting session
protocol).  `ctxAtEncrypt` and `ctxAtConfirm` are the contexts observed at the
two staleness checks (after the ballot is encrypted and after the transaction
confirms); `encryptOk` and `txOk` are the outcomes of the co-processor
encryption and of the transaction; on full success the proposal state is
refreshed and the handles reloaded (`refreshedYesHandle`/`refreshedNoHandle`)
while any previously decrypted tally is invalidated. -/
def castVote (st : HookState) (hasInstance : Bool) (signer : Option Nat)
    (daoAddress : Option Nat) (chainId : Option Nat) (voteValue : Nat)
    (encryptOk : Bool) (ctxAtEncrypt : Ctx) (txOk : Bool) (ctxAtConfirm : Ctx)
    (refreshedYesHandle refreshedNoHandle : Nat) : HookState :=
  match signer, daoAddress with
  | some sg, some ad =>
    if st.isVoting = true ∨ hasInstance = false ∨
        (voteValue ≠ 0 ∧ voteValue ≠ 1) then st
    else if encryptOk = false then
      { st with isVoting := false, message := "Vote failed" }
    else if ctxAtEncrypt ≠ Ctx.mk chainId sg ad then
      { st with isVoting := false, message := "Ignore vote" }
    else if txOk = false then
      { st with isVoting := false, message := "Vote failed" }
    else if ctxAtConfirm ≠ Ctx.mk chainId sg ad then
      { st with isVoting := false, message := "Ignore vote" }
    else
      { st with
        isVoting := false
        yesVotesHandle := some refreshedYesHandle
        noVotesHandle := some refreshedNoHandle
        clearYesVotes := none
        clearNoVotes := none
        message := "Vote submitted. Please decrypt results again." }
  | _, _ => st

end Hook

namespace EncryptedDAO

theorem fhe_add_small (x i : Nat) (hx : x + 1 < UINT32_MOD) (hi : i ≤ 1) :
    FHE.add x i = x + i := by
  unfold FHE.add
  exact Nat.mod_eq_of_lt (by omega)

/-- The counter arithmetic of a successful `castVote`: absent 32-bit
wraparound, the yes counter gains the indicator of ballot = 1, the no counter
the indicator of ballot = 0, and `totalVoters` gains one. -/
theorem castVote_ok_counters {s : DAOState} {m pid b t : Nat} {s' : DAOState}
    (h : castVote s m pid b true t = Except.ok s')
    (hb : b < UINT32_MOD)
    (hy : (s.proposals pid).encryptedYesVotes + 1 < UINT32_MOD)
    (hn : (s.proposals pid).encryptedNoVotes + 1 < UINT32_MOD) :
    (s'.proposals pid).encryptedYesVotes =
      (s.proposals pid).encryptedYesVotes + (if b = 1 then 1 else 0) ∧
    (s'.proposals pid).encryptedNoVotes =
      (s.proposals pid).encryptedNoVotes + (if b = 0 then 1 else 0) ∧
    (s'.proposals pid).totalVoters = (s.proposals pid).totalVoters + 1 := by
  obtain ⟨-, -, -, -, -, -, -, -, hprop, -, -, -, -⟩ := castVote_ok_elim h
  refine ⟨?_, ?_, ?_⟩ <;> simp only [hprop, if_pos rfl]
  · simp only [FHE.add, FHE.select, FHE.eq, FHE.fromExternal, FHE.asEuint32,
      one_mod_uint32, zero_mod_uint32, Nat.mod_eq_of_lt hb, beq_iff_eq]
    exact Nat.mod_eq_of_lt (by split <;> omega)
  · simp only [FHE.add, FHE.select, FHE.eq, FHE.fromExternal, FHE.asEuint32,
      one_mod_uint32, zero_mod_uint32, Nat.mod_eq_of_lt hb, beq_iff_eq]
    exact Nat.mod_eq_of_lt (by split <;> omega)
  · rfl

/-- C1: with all `castVote` preconditions met the call succeeds for every
32-bit ballot value; the plaintext under `encryptedYesVotes` increases by 1
exactly when the ballot is 1, the plaintext under `encryptedNoVotes`
increases by 1 exactly when the ballot is 0, and a ballot outside 0 and 1
leaves both counters unchanged while the call still succeeds.  The
hypotheses `hy`/`hn` exclude 32-bit wraparound of the counters, which the
homomorphic addition would otherwise perform. -/
theorem castVote_ballot_tally (s : DAOState) (m pid b t : Nat)
    (hb : b < UINT32_MOD)
    (h1 : 0 < pid) (h2 : pid ≤ s.proposalCounter)
    (h3 : (s.members m).isMember = true)
    (h4 : (s.proposals pid).startTime ≤ t)
    (h5 : t ≤ (s.proposals pid).endTime)
    (h6 : s.hasVoted pid m = false)
    (h7 : (s.proposals pid).executed = false)
    (h8 : (s.proposals pid).totalVoters + 1 < UINT256_MOD)
    (hy : (s.proposals pid).encryptedYesVotes + 1 < UINT32_MOD)
    (hn : (s.proposals pid).encryptedNoVotes + 1 < UINT32_MOD) :
    ∃ s', castVote s m pid b true t = Except.ok s' ∧
      ((s'.proposals pid).encryptedYesVotes =
        (s.proposals pid).encryptedYesVotes + 1 ↔ b = 1) ∧
      ((s'.proposals pid).encryptedNoVotes =
        (s.proposals pid).encryptedNoVotes + 1 ↔ b = 0) ∧
      ((s'.proposals pid).encryptedYesVotes =
        (s.proposals pid).encryptedYesVotes ↔ b ≠ 1) ∧
      ((s'.proposals pid).encryptedNoVotes =
        (s.proposals pid).encryptedNoVotes ↔ b ≠ 0) ∧
      (s'.proposals pid).totalVoters = (s.proposals pid).totalVoters + 1 := by
  have hok := castVote_ok_intro (b := b) h1 h2 h3 h4 h5 h6 h7 h8
  obtain ⟨hy', hn', ht'⟩ := castVote_ok_counters hok hb hy hn
  refine ⟨_, hok, ?_, ?_, ?_, ?_, ht'⟩
  · rw [hy']
    by_cases hb1 : b = 1 <;> simp [hb1]
  · rw [hn']
    by_cases hb0 : b = 0 <;> simp [hb0]
  · rw [hy']
    by_cases hb1 : b = 1 <;> simp [hb1]
  · rw [hn']
    by_cases hb0 : b = 0 <;> simp [hb0]

end EncryptedDAO

namespace EncryptedDAO

/-- C1 witness: `castVote_ballot_tally` applied at the concrete state
`sCreated` with ballot 1 at time 0, all hypotheses discharged there. -/
theorem castVote_ballot_tally_witness :
    ((1:Nat) < UINT32_MOD ∧ (0:Nat) < 1 ∧ 1 ≤ sCreated.proposalCounter ∧
      (sCreated.members 0).isMember = true ∧
      (sCreated.proposals 1).startTime ≤ 0 ∧
      (0:Nat) ≤ (sCreated.proposals 1).endTime ∧
      sCreated.hasVoted 1 0 = false ∧
      (sCreated.proposals 1).executed = false ∧
      (sCreated.proposals 1).totalVoters + 1 < UINT256_MOD ∧
      (sCreated.proposals 1).encryptedYesVotes + 1 < UINT32_MOD ∧
      (sCreated.proposals 1).encryptedNoVotes + 1 < UINT32_MOD) ∧
    (∃ s', castVote sCreated 0 1 1 true 0 = Except.ok s' ∧
      ((s'.proposals 1).encryptedYesVotes =
        (sCreated.proposals 1).encryptedYesVotes + 1 ↔ (1:Nat) = 1) ∧
      ((s'.proposals 1).encryptedNoVotes =
        (sCreated.proposals 1).encryptedNoVotes + 1 ↔ (1:Nat) = 0) ∧
      ((s'.proposals 1).encryptedYesVotes =
        (sCreated.proposals 1).encryptedYesVotes ↔ (1:Nat) ≠ 1) ∧
      ((s'.proposals 1).encryptedNoVotes =
        (sCreated.proposals 1).encryptedNoVotes ↔ (1:Nat) ≠ 0) ∧
      (s'.proposals 1).totalVoters = (sCreated.proposals 1).totalVoters + 1) :=
  ⟨⟨by decide, by decide, by decide, by decide, by decide, by decide,
    by decide, by decide, by decide, by decide, by decide⟩,
    castVote_ballot_tally sCreated 0 1 1 0 (by decide) (by decide) (by decide)
      (by decide) (by decide) (by decide) (by decide) (by decide) (by decide)
      (by decide) (by decide)⟩

end EncryptedDAO

namespace EncryptedDAO

/-- C6: for a valid proposal id, `isVotingEnded` returns true exactly when
the current time strictly exceeds `endTime`; with the remaining
preconditions met, `castVote` succeeds exactly when the current time lies in
the closed interval from `startTime` to `endTime`; hence at `t = endTime`
voting is not yet ended and a vote is still accepted. -/
theorem voting_window_boundary (s : DAOState) (m pid b t : Nat)
    (h1 : 0 < pid) (h2 : pid ≤ s.proposalCounter)
    (h3 : (s.members m).isMember = true)
    (h6 : s.hasVoted pid m = false)
    (h7 : (s.proposals pid).executed = false)
    (h8 : (s.proposals pid).totalVoters + 1 < UINT256_MOD) :
    (isVotingEnded s pid t = Except.ok true ↔ (s.proposals pid).endTime < t) ∧
    ((∃ s', castVote s m pid b true t = Except.ok s') ↔
      ((s.proposals pid).startTime ≤ t ∧ t ≤ (s.proposals pid).endTime)) ∧
    isVotingEnded s pid ((s.proposals pid).endTime) = Except.ok false ∧
    ((s.proposals pid).startTime ≤ (s.proposals pid).endTime →
      ∃ s', castVote s m pid b true ((s.proposals pid).endTime) =
        Except.ok s') := by
  refine ⟨?_, ?_, ?_, ?_⟩
  · unfold isVotingEnded
    rw [if_pos ⟨h1, h2⟩]
    constructor
    · intro hx
      injection hx with hx'
      exact of_decide_eq_true hx'
    · intro hx
      rw [decide_eq_true hx]
  · constructor
    · rintro ⟨s', hs'⟩
      exact ⟨(castVote_ok_elim hs').2.2.1, (castVote_ok_elim hs').2.2.2.1⟩
    · rintro ⟨ha, hbnd⟩
      exact ⟨_, castVote_ok_intro h1 h2 h3 ha hbnd h6 h7 h8⟩
  · unfold isVotingEnded
    rw [if_pos ⟨h1, h2⟩, decide_eq_false (lt_irrefl _)]
  · intro hse
    exact ⟨_, castVote_ok_intro h1 h2 h3 hse (Nat.le_refl _) h6 h7 h8⟩

/-- C6 witness: `voting_window_boundary` applied at the concrete state
`sCreated` (window [0, 86400]), proposal 1, voter 0, ballot 0, time 5. -/
theorem voting_window_boundary_witness :
    ((0:Nat) < 1 ∧ 1 ≤ sCreated.proposalCounter ∧
      (sCreated.members 0).isMember = true ∧
      sCreated.hasVoted 1 0 = false ∧
      (sCreated.proposals 1).executed = false ∧
      (sCreated.proposals 1).totalVoters + 1 < UINT256_MOD) ∧
    ((isVotingEnded sCreated 1 5 = Except.ok true ↔
        (sCreated.proposals 1).endTime < 5) ∧
      ((∃ s', castVote sCreated 0 1 0 true 5 = Except.ok s') ↔
        ((sCreated.proposals 1).startTime ≤ 5 ∧
          5 ≤ (sCreated.proposals 1).endTime)) ∧
      isVotingEnded sCreated 1 ((sCreated.proposals 1).endTime) =
        Except.ok false ∧
      ((sCreated.proposals 1).startTime ≤ (sCreated.proposals 1).endTime →
        ∃ s', castVote sCreated 0 1 0 true ((sCreated.proposals 1).endTime) =
          Except.ok s')) :=
  ⟨⟨by decide, by decide, by decide, by decide, by decide, by decide⟩,
    voting_window_boundary sCreated 0 1 0 5 (by decide) (by decide)
      (by decide) (by decide) (by decide) (by decide)⟩

/-- C7: with a member caller and a non-empty description, `createProposal`
reverts with the too-short-duration condition strictly below the one-day
minimum of 86400 seconds, and succeeds at exactly the minimum, allocating
the next sequential id with `startTime = now`, `endTime = now + duration`,
zero voters, and returning the new id.  The two overflow hypotheses reflect
uint256 checked arithmetic. -/
theorem createProposal_min_duration (s : DAOState) (m : Nat) (d : String)
    (dur t : Nat)
    (hmem : (s.members m).isMember = true)
    (hd : d.utf8ByteSize ≠ 0)
    (hc : s.proposalCounter + 1 < UINT256_MOD)
    (ht : t + dur < UINT256_MOD) :
    MIN_VOTING_DURATION = 86400 ∧
    (dur < MIN_VOTING_DURATION →
      createProposal s m d dur t =
        Except.error DAOError.votingDurationTooShort) ∧
    (dur = MIN_VOTING_DURATION → ∃ s',
      createProposal s m d dur t = Except.ok (s', s.proposalCounter + 1) ∧
      s'.proposalCounter = s.proposalCounter + 1 ∧
      (s'.proposals (s.proposalCounter + 1)).id = s.proposalCounter + 1 ∧
      (s'.proposals (s.proposalCounter + 1)).startTime = t ∧
      (s'.proposals (s.proposalCounter + 1)).endTime = t + dur ∧
      (s'.proposals (s.proposalCounter + 1)).totalVoters = 0) := by
  refine ⟨rfl, ?_, ?_⟩
  · intro hlt
    unfold createProposal
    rw [if_pos hmem, if_neg (by omega)]
  · intro heq
    have hok := createProposal_ok_intro hmem (by omega) hd hc ht
    obtain ⟨-, -, -, -, -, -, hprop, -, -, hpc, -⟩ := createProposal_ok_elim hok
    refine ⟨_, hok, hpc, ?_, ?_, ?_, ?_⟩ <;> rw [hprop] <;> simp

/-- C7 witness: `createProposal_min_duration` applied at the deployment state
with description "q", duration 86399 and 86400, at time 11. -/
theorem createProposal_min_duration_witness :
    ((sDeploy.members 0).isMember = true ∧ "q".utf8ByteSize ≠ 0 ∧
      sDeploy.proposalCounter + 1 < UINT256_MOD ∧
      (11:Nat) + 86400 < UINT256_MOD) ∧
    (MIN_VOTING_DURATION = 86400 ∧
      (86400 < MIN_VOTING_DURATION →
        createProposal sDeploy 0 "q" 86400 11 =
          Except.error DAOError.votingDurationTooShort) ∧
      ((86400:Nat) = MIN_VOTING_DURATION → ∃ s',
        createProposal sDeploy 0 "q" 86400 11 =
          Except.ok (s', sDeploy.proposalCounter + 1) ∧
        s'.proposalCounter = sDeploy.proposalCounter + 1 ∧
        (s'.proposals (sDeploy.proposalCounter + 1)).id =
          sDeploy.proposalCounter + 1 ∧
        (s'.proposals (sDeploy.proposalCounter + 1)).startTime = 11 ∧
        (s'.proposals (sDeploy.proposalCounter + 1)).endTime = 11 + 86400 ∧
        (s'.proposals (sDeploy.proposalCounter + 1)).totalVoters = 0)) :=
  ⟨⟨by decide, by decide, by decide, by decide⟩,
    createProposal_min_duration sDeploy 0 "q" 86400 11 (by decide) (by decide)
      (by decide) (by decide)⟩

/-- C9: `getProposal` fails with the invalid-id condition exactly on ids
outside the interval from 1 to `proposalCounter`, and succeeds exactly on
ids inside it. -/
theorem getProposal_valid_range (s : DAOState) (pid : Nat) :
    (getProposal s pid = Except.error DAOError.invalidProposalId ↔
      ¬(1 ≤ pid ∧ pid ≤ s.proposalCounter)) ∧
    ((∃ r, getProposal s pid = Except.ok r) ↔
      (1 ≤ pid ∧ pid ≤ s.proposalCounter)) := by
  unfold getProposal
  by_cases h : 0 < pid ∧ pid ≤ s.proposalCounter
  · rw [if_pos h]
    refine ⟨⟨?_, ?_⟩, ⟨?_, ?_⟩⟩
    · intro hx
      exact Except.noConfusion hx
    · intro hx
      exact absurd h hx
    · intro _
      exact h
    · intro _
      exact ⟨_, rfl⟩
  · rw [if_neg h]
    refine ⟨⟨?_, ?_⟩, ⟨?_, ?_⟩⟩
    · intro _
      exact h
    · intro _
      rfl
    · rintro ⟨r, hr⟩
      exact Except.noConfusion hr
    · intro hx
      exact absurd hx h

/-- C10: the constructor registers the deployer as a member with
`memberCounter = 1`, so `getMemberCount` returns 1, and the deployer can
immediately create a proposal and cast a vote on it without `joinDAO`. -/
theorem constructor_registers_deployer (deployer t0 : Nat) :
    ((deployContract deployer t0).members deployer).isMember = true ∧
    (deployContract deployer t0).memberCounter = 1 ∧
    getMemberCount (deployContract deployer t0) = 1 ∧
    (∀ (d : String) (dur t1 b : Nat),
      MIN_VOTING_DURATION ≤ dur → d.utf8ByteSize ≠ 0 →
      t1 + dur < UINT256_MOD →
      ∃ s' s'',
        createProposal (deployContract deployer t0) deployer d dur t1 =
          Except.ok (s', 1) ∧
        castVote s' deployer 1 b true t1 = Except.ok s'') := by
  have hmem : ((deployContract deployer t0).members deployer).isMember = true := by
    simp [deployContract]
  refine ⟨hmem, rfl, rfl, ?_⟩
  intro d dur t1 b hdur hd hov
  have hok := createProposal_ok_intro (s := deployContract deployer t0)
    (m := deployer) (d := d) (t := t1) hmem hdur hd
    (by exact (by decide : (0:Nat) + 1 < UINT256_MOD)) hov
  obtain ⟨-, -, -, -, -, -, hprop, hhv, hmembers, hpc, -⟩ :=
    createProposal_ok_elim hok
  refine ⟨_, _, hok, castVote_ok_intro (b := b) ?_ ?_ ?_ ?_ ?_ ?_ ?_ ?_⟩
  · exact Nat.one_pos
  · rw [hpc]
    exact Nat.le_refl 1
  · rw [hmembers]
    exact hmem
  · rw [hprop]
    exact Nat.le_refl t1
  · rw [hprop]
    exact Nat.le_add_right t1 dur
  · rw [hhv]
    rfl
  · rw [hprop]
    rfl
  · rw [hprop]
    exact (by decide : (0:Nat) + 1 < UINT256_MOD)

/-- C10 witness: `constructor_registers_deployer` applied at deployer 3,
deployment time 7, description "x", the minimum duration, time 10, ballot 1. -/
theorem constructor_registers_deployer_witness :
    ((deployContract 3 7).members 3).isMember = true ∧
    (deployContract 3 7).memberCounter = 1 ∧
    getMemberCount (deployContract 3 7) = 1 ∧
    (MIN_VOTING_DURATION ≤ 86400 ∧ "x".utf8ByteSize ≠ 0 ∧
      (10:Nat) + 86400 < UINT256_MOD) ∧
    (∃ s' s'',
      createProposal (deployContract 3 7) 3 "x" 86400 10 =
        Except.ok (s', 1) ∧
      castVote s' 3 1 1 true 10 = Except.ok s'') :=
  ⟨(constructor_registers_deployer 3 7).1,
    (constructor_registers_deployer 3 7).2.1,
    (constructor_registers_deployer 3 7).2.2.1,
    ⟨by decide, by decide, by decide⟩,
    (constructor_registers_deployer 3 7).2.2.2 "x" 86400 10 1 (by decide)
      (by decide) (by decide)⟩

end EncryptedDAO

namespace EncryptedDAO

/-- C8: membership is monotonic along every sequence of successful contract
transactions (no entry point deletes a member or resets the flag), and both
`joinDAO` and `addMember` (the latter called by a member) revert with the
already-member condition when the target address is already a member. -/
theorem membership_monotone :
    (∀ s s' : DAOState, Steps s s' → ∀ a : Nat,
      (s.members a).isMember = true → (s'.members a).isMember = true) ∧
    (∀ (s : DAOState) (a t : Nat), (s.members a).isMember = true →
      joinDAO s a t = Except.error DAOError.alreadyMember) ∧
    (∀ (s : DAOState) (m a t : Nat), (s.members m).isMember = true →
      (s.members a).isMember = true →
      addMember s m a t = Except.error DAOError.alreadyMember) := by
  refine ⟨fun s s' h a hm => steps_members_mono h a hm, ?_, ?_⟩
  · intro s a t hm
    unfold joinDAO
    rw [if_pos hm]
  · intro s m a t hm ha
    unfold addMember
    rw [if_pos hm, if_pos ha]

/-- C8 witness: `membership_monotone` applied along the concrete step from
deployment to `sCreated`, and to the deployer re-joining or being re-added. -/
theorem membership_monotone_witness :
    (Steps sDeploy sCreated ∧ (sDeploy.members 0).isMember = true ∧
      (sCreated.members 0).isMember = true) ∧
    joinDAO sDeploy 0 9 = Except.error DAOError.alreadyMember ∧
    addMember sDeploy 0 0 9 = Except.error DAOError.alreadyMember := by
  have hsteps : Steps sDeploy sCreated :=
    Steps.tail (Steps.refl sDeploy)
      (Step.create (rfl :
        createProposal sDeploy 0 "p" 86400 0 = Except.ok (sCreated, 1)))
  exact ⟨⟨hsteps, by decide,
      membership_monotone.1 sDeploy sCreated hsteps 0 (by decide)⟩,
    membership_monotone.2.1 sDeploy 0 9 (by decide),
    membership_monotone.2.2 sDeploy 0 0 9 (by decide) (by decide)⟩

/-- C3 (amended): after a successful `castVote` by member `m` on proposal
`pid`, every subsequent `castVote` attempt by `m` on `pid` — after any
sequence of further successful transactions — fails (never returns ok, so
the state is left unchanged); the failure is the duplicate-vote condition
whenever the attempt falls inside the proposal's voting window, while
outside the window the earlier time check fires first instead. -/
theorem castVote_at_most_once {s s1 s2 : DAOState} {m pid b : Nat}
    {pf : Bool} {t : Nat} (hfirst : castVote s m pid b pf t = Except.ok s1)
    (hsteps : Steps s1 s2) (b2 : Nat) (pf2 : Bool) (t2 : Nat) :
    (∀ s3, castVote s2 m pid b2 pf2 t2 ≠ Except.ok s3) ∧
    ((s2.proposals pid).startTime ≤ t2 →
      t2 ≤ (s2.proposals pid).endTime →
      castVote s2 m pid b2 pf2 t2 = Except.error DAOError.alreadyVoted) := by
  obtain ⟨hvalid, hmem, -, -, -, -, -, -, -, hhv, hmembers, hpc, -⟩ :=
    castVote_ok_elim hfirst
  have hv1 : s1.hasVoted pid m = true := by
    simp [hhv]
  have hv2 : s2.hasVoted pid m = true := steps_hasVoted_mono hsteps pid m hv1
  have hmem1 : (s1.members m).isMember = true := by
    rw [hmembers]
    exact hmem
  have hmem2 : (s2.members m).isMember = true :=
    steps_members_mono hsteps m hmem1
  have hvalid1 : pid ≤ s1.proposalCounter := by
    rw [hpc]
    exact hvalid.2
  have hvalid2 : pid ≤ s2.proposalCounter :=
    Nat.le_trans hvalid1 (steps_proposalCounter_mono hsteps)
  constructor
  · intro s3 hcon
    have hfalse := (castVote_ok_elim hcon).2.2.2.2.1
    rw [hv2] at hfalse
    exact Bool.noConfusion hfalse
  · intro ha hb2
    unfold castVote
    rw [if_pos ⟨hvalid.1, hvalid2⟩, if_pos hmem2, if_pos ha, if_pos hb2,
      if_neg (by simp [hv2])]

/-- C3 counterexample: the deployer successfully votes on proposal 1 during
the window; the repeated attempt at time 86401 (after `endTime = 86400`)
fails with the voting-ended condition, not the duplicate-vote condition the
claim requires for every subsequent attempt. -/
theorem second_vote_after_end_counterexample :
    castVote sCreated 0 1 1 true 0 = Except.ok sVotedYes ∧
    sVotedYes.hasVoted 1 0 = true ∧
    castVote sVotedYes 0 1 1 true 86401 =
      Except.error DAOError.votingEnded ∧
    DAOError.votingEnded ≠ DAOError.alreadyVoted :=
  ⟨rfl, by decide, rfl, by decide⟩

/-- C3 witness: `castVote_at_most_once` applied right after the deployer's
successful vote, with a second attempt inside the window at time 5. -/
theorem castVote_at_most_once_witness :
    (castVote sCreated 0 1 1 true 0 = Except.ok sVotedYes ∧
      Steps sVotedYes sVotedYes ∧
      (sVotedYes.proposals 1).startTime ≤ 5 ∧
      (5:Nat) ≤ (sVotedYes.proposals 1).endTime) ∧
    (∀ s3, castVote sVotedYes 0 1 1 true 5 ≠ Except.ok s3) ∧
    castVote sVotedYes 0 1 1 true 5 = Except.error DAOError.alreadyVoted :=
  ⟨⟨rfl, Steps.refl sVotedYes, by decide, by decide⟩,
    (@castVote_at_most_once sCreated sVotedYes sVotedYes 0 1 1 true 0 rfl
      (Steps.refl sVotedYes) 1 true 5).1,
    (@castVote_at_most_once sCreated sVotedYes sVotedYes 0 1 1 true 0 rfl
      (Steps.refl sVotedYes) 1 true 5).2 (by decide) (by decide)⟩

/-- C2 (amended): in every reachable state, each vote receipt corresponds to
exactly one logged ballot submission (receipts coincide with log entries and
each (proposal, voter) key occurs at most once), and each encrypted counter
equals, modulo 2^32, the number of logged ballots for its value — so each
receipt contributes to at most one counter: exactly one when its ballot is 0
or 1, and neither when the ballot lies outside 0 and 1. -/
theorem hasVoted_accounting (s : DAOState) (log : List (Nat × Nat × Nat))
    (h : TReach s log) :
    (∀ p v, s.hasVoted p v = true ↔ ∃ b, (p, v, b) ∈ log) ∧
    List.Pairwise keyDistinct log ∧
    (∀ p, (s.proposals p).encryptedYesVotes =
      (log.countP (yesPred p)) % UINT32_MOD) ∧
    (∀ p, (s.proposals p).encryptedNoVotes =
      (log.countP (noPred p)) % UINT32_MOD) :=
  ⟨(treach_voteAccounting h).1, (treach_voteAccounting h).2.1,
    (treach_voteAccounting h).2.2.1, (treach_voteAccounting h).2.2.2.1⟩

/-- C2 counterexample: in the reachable state `sVotedTwo` (deploy, create
proposal 1, deployer casts the out-of-range ballot 2) the receipt
`hasVoted[1][0]` is set while both encrypted counters stay 0 with one total
voter — the recorded vote is counted in neither counter, not exactly one. -/
theorem receipt_without_increment_counterexample :
    TReach sVotedTwo [(1, 0, 2)] ∧
    sVotedTwo.hasVoted 1 0 = true ∧
    (sVotedTwo.proposals 1).encryptedYesVotes = 0 ∧
    (sVotedTwo.proposals 1).encryptedNoVotes = 0 ∧
    (sVotedTwo.proposals 1).totalVoters = 1 :=
  ⟨@TReach.vote sCreated [] 0 1 2 true 0 sVotedTwo
      (@TReach.create (deployContract 0 0) [] 0 "p" 86400 0 sCreated 1
        (TReach.init 0 0) rfl) rfl,
    by decide, by decide, by decide, by decide⟩

/-- C2 witness: `hasVoted_accounting` applied at the freshly deployed state
with the empty log. -/
theorem hasVoted_accounting_witness :
    TReach (deployContract 5 6) [] ∧
    ((deployContract 5 6).proposals 1).encryptedYesVotes =
      (([] : List (Nat × Nat × Nat)).countP (yesPred 1)) % UINT32_MOD :=
  ⟨TReach.init 5 6,
    (hasVoted_accounting (deployContract 5 6) [] (TReach.init 5 6)).2.2.1 1⟩

end EncryptedDAO

namespace Hook

/-- C4: whenever the session context observed at either staleness check
differs from the context captured when the decryption request started (chain,
signer or contract address changed mid-flight), `decryptVotes` leaves
`clearYesVotes` and `clearNoVotes` untouched — even when the co-processor
resolution itself succeeded. -/
theorem decryptVotes_stale_discard (st : HookState) (hasInstance : Bool)
    (sg ad : Nat) (chainId : Option Nat) (selectedProposalId : Option Nat)
    (sigObtained : Bool) (ctxAtSig ctxAtResolve : Ctx)
    (coResult : Except String (Nat × Nat))
    (hstale : ctxAtSig ≠ Ctx.mk chainId sg ad ∨
      ctxAtResolve ≠ Ctx.mk chainId sg ad) :
    (decryptVotes st hasInstance (some sg) (some ad) chainId
      selectedProposalId sigObtained ctxAtSig ctxAtResolve
      coResult).clearYesVotes = st.clearYesVotes ∧
    (decryptVotes st hasInstance (some sg) (some ad) chainId
      selectedProposalId sigObtained ctxAtSig ctxAtResolve
      coResult).clearNoVotes = st.clearNoVotes := by
  unfold decryptVotes
  cases hyh : st.yesVotesHandle with
  | none => exact ⟨rfl, rfl⟩
  | some yh =>
    cases hnh : st.noVotesHandle with
    | none => exact ⟨rfl, rfl⟩
    | some nh =>
      cases hsp : selectedProposalId with
      | none => exact ⟨rfl, rfl⟩
      | some sp =>
        dsimp only
        by_cases hg1 : st.isDecrypting = true ∨ hasInstance = false
        · rw [if_pos hg1]
          exact ⟨rfl, rfl⟩
        · rw [if_neg hg1]
          by_cases hg2 : st.clearYesVotes.map Prod.fst = some yh ∧
              st.clearNoVotes.map Prod.fst = some nh
          · rw [if_pos hg2]
            exact ⟨rfl, rfl⟩
          · rw [if_neg hg2]
            by_cases hg3 : sigObtained = false
            · rw [if_pos hg3]
              exact ⟨rfl, rfl⟩
            · rw [if_neg hg3]
              by_cases hg4 : ctxAtSig ≠ Ctx.mk chainId sg ad
              · rw [if_pos hg4]
                exact ⟨rfl, rfl⟩
              · rw [if_neg hg4]
                have hres : ctxAtResolve ≠ Ctx.mk chainId sg ad :=
                  hstale.resolve_left hg4
                cases coResult with
                | error e => exact ⟨rfl, rfl⟩
                | ok yn =>
                  dsimp only
                  rw [if_pos hres]
                  exact ⟨rfl, rfl⟩

/-- C4 witness: `decryptVotes_stale_discard` at a concrete session whose
chain id changed between request start and resolution, with a successful
co-processor result. -/
theorem decryptVotes_stale_discard_witness :
    (Ctx.mk (some 5) 1 2 ≠ Ctx.mk (some 5) 1 2 ∨
      Ctx.mk (some 6) 1 2 ≠ Ctx.mk (some 5) 1 2) ∧
    (decryptVotes (HookState.mk (some 10) (some 11) none none false false "")
      true (some 1) (some 2) (some 5) (some 1) true (Ctx.mk (some 5) 1 2)
      (Ctx.mk (some 6) 1 2)
      (Except.ok (3, 4))).clearYesVotes =
      (HookState.mk (some 10) (some 11) none none false false
        "").clearYesVotes ∧
    (decryptVotes (HookState.mk (some 10) (some 11) none none false false "")
      true (some 1) (some 2) (some 5) (some 1) true (Ctx.mk (some 5) 1 2)
      (Ctx.mk (some 6) 1 2)
      (Except.ok (3, 4))).clearNoVotes =
      (HookState.mk (some 10) (some 11) none none false false
        "").clearNoVotes :=
  ⟨Or.inr (by decide),
    (decryptVotes_stale_discard
      (HookState.mk (some 10) (some 11) none none false false "") true 1 2
      (some 5) (some 1) true (Ctx.mk (some 5) 1 2) (Ctx.mk (some 6) 1 2)
      (Except.ok (3, 4)) (Or.inr (by decide))).1,
    (decryptVotes_stale_discard
      (HookState.mk (some 10) (some 11) none none false false "") true 1 2
      (some 5) (some 1) true (Ctx.mk (some 5) 1 2) (Ctx.mk (some 6) 1 2)
      (Except.ok (3, 4)) (Or.inr (by decide))).2⟩

/-- C5: a `decryptVotes` call while a decryption is already in flight, and a
`castVote` call while a vote is already in flight, return the hook state
completely unchanged — no field is written and no new request is started. -/
theorem single_flight_guard :
    (∀ (st : HookState) (hasInstance : Bool)
        (signer daoAddress chainId selectedProposalId : Option Nat)
        (sigObtained : Bool) (ctxAtSig ctxAtResolve : Ctx)
        (coResult : Except String (Nat × Nat)),
      st.isDecrypting = true →
      decryptVotes st hasInstance signer daoAddress chainId
        selectedProposalId sigObtained ctxAtSig ctxAtResolve coResult = st) ∧
    (∀ (st : HookState) (hasInstance : Bool)
        (signer daoAddress chainId : Option Nat) (voteValue : Nat)
        (encryptOk : Bool) (ctxAtEncrypt : Ctx) (txOk : Bool)
        (ctxAtConfirm : Ctx) (ry rn : Nat),
      st.isVoting = true →
      castVote st hasInstance signer daoAddress chainId voteValue encryptOk
        ctxAtEncrypt txOk ctxAtConfirm ry rn = st) := by
  constructor
  · intro st hasInstance signer daoAddress chainId selectedProposalId
      sigObtained ctxAtSig ctxAtResolve coResult h
    unfold decryptVotes
    cases st.yesVotesHandle <;> cases st.noVotesHandle <;> cases signer <;>
      cases daoAddress <;> cases selectedProposalId <;> simp [h]
  · intro st hasInstance signer daoAddress chainId voteValue encryptOk
      ctxAtEncrypt txOk ctxAtConfirm ry rn h
    unfold castVote
    cases signer <;> cases daoAddress <;> simp [h]

/-- C5 witness: `single_flight_guard` at a concrete hook state with both
in-flight flags set. -/
theorem single_flight_guard_witness :
    (HookState.mk (some 1) (some 2) none none true true "").isDecrypting =
      true ∧
    decryptVotes (HookState.mk (some 1) (some 2) none none true true "") true
      (some 1) (some 2) (some 5) (some 1) true (Ctx.mk (some 5) 1 2)
      (Ctx.mk (some 5) 1 2) (Except.ok (3, 4)) =
      HookState.mk (some 1) (some 2) none none true true "" ∧
    (HookState.mk (some 1) (some 2) none none true true "").isVoting = true ∧
    castVote (HookState.mk (some 1) (some 2) none none true true "") true
      (some 1) (some 2) (some 5) 1 true (Ctx.mk (some 5) 1 2) true
      (Ctx.mk (some 5) 1 2) 7 8 =
      HookState.mk (some 1) (some 2) none none true true "" :=
  ⟨by decide,
    single_flight_guard.1 (HookState.mk (some 1) (some 2) none none true true
      "") true (some 1) (some 2) (some 5) (some 1) true (Ctx.mk (some 5) 1 2)
      (Ctx.mk (some 5) 1 2) (Except.ok (3, 4)) (by decide),
    by decide,
    single_flight_guard.2 (HookState.mk (some 1) (some 2) none none true true
      "") true (some 1) (some 2) (some 5) 1 true (Ctx.mk (some 5) 1 2) true
      (Ctx.mk (some 5) 1 2) 7 8 (by decide)⟩

end Hook
